import Mathlib

/-!
Verification of the freeq parametric equalizer core (src/src/filter.rs and
src/src/lib.rs) against its specification.  The Rust f32 arithmetic is
modelled over the real numbers; integer ids are modelled as Nat.
-/

/-- The eight filter response types of src/src/filter.rs (enum FilterKind). -/
inductive FilterKind where
  | lowPass
  | lowPass2
  | lowShelf
  | highPass
  | highPass2
  | highShelf
  | peak
  | notch
  deriving DecidableEq

namespace FilterKind

/-- FilterKind::MAX_ID in src/src/filter.rs. -/
def MAX_ID : Nat := 7

/-- FilterKind::id in src/src/filter.rs. -/
def id : FilterKind → Nat
  | .lowPass => 0
  | .lowPass2 => 1
  | .lowShelf => 2
  | .highPass => 3
  | .highPass2 => 4
  | .highShelf => 5
  | .peak => 6
  | .notch => 7

/-- FilterKind::from_id in src/src/filter.rs. -/
def from_id (i : Nat) : Option FilterKind :=
  if i = 0 then some .lowPass
  else if i = 1 then some .lowPass2
  else if i = 2 then some .lowShelf
  else if i = 3 then some .highPass
  else if i = 4 then some .highPass2
  else if i = 5 then some .highShelf
  else if i = 6 then some .peak
  else if i = 7 then some .notch
  else none

/-- FilterKind::prev in src/src/filter.rs.  The Rust code unwraps the Option;
the argument of from_id is always below MAX_ID so the fallback of getD is
never taken. -/
def prev (k : FilterKind) : FilterKind :=
  (from_id ((k.id + MAX_ID - 1) % MAX_ID)).getD .peak

/-- FilterKind::next in src/src/filter.rs.  Same remark on getD as for prev. -/
def next (k : FilterKind) : FilterKind :=
  (from_id ((k.id + 1) % MAX_ID)).getD .peak

/-- The kind resolution performed by the Param::set impl for FilterKind in
src/src/filter.rs: FilterKind::from_id(plain.round() as u32).unwrap_or(Peak).
The input here is the u32 produced by the saturating f32-to-u32 cast of the
rounded plain value. -/
def kindSet (i : Nat) : FilterKind :=
  (from_id i).getD .peak

end FilterKind

/-- The per-(band, channel) filter state of src/src/filter.rs (struct
FilterState): five feed-forward/feedback coefficients plus the raw a0, and
the four delay elements.  All f32 fields are modelled as reals. -/
structure FilterState where
  b0 : ℝ
  b1 : ℝ
  b2 : ℝ
  a0 : ℝ
  a1 : ℝ
  a2 : ℝ
  z1 : ℝ
  z2 : ℝ
  y1 : ℝ
  y2 : ℝ

namespace FilterState

/-- The Default derive for FilterState: every f32 field starts at zero. -/
def default : FilterState := ⟨0, 0, 0, 0, 0, 0, 0, 0, 0, 0⟩

/-- FilterState::set_params_inner in src/src/filter.rs: the per-kind cookbook
branch assigns the six raw coefficients, then b0, b1, b2, a1, a2 are each
divided by the (unmodified) a0 field. -/
noncomputable def setParamsInner (s : FilterState) (freq gain q : ℝ)
    (kind : FilterKind) (sampleRate : ℝ) : FilterState :=
  let a := (10 : ℝ) ^ (gain / 40)
  let w0 := 2 * Real.pi * freq / sampleRate
  let cosW0 := Real.cos w0
  let s :=
    match kind with
    | .lowPass =>
        let w0t := Real.tan (w0 / 2)
        { s with b0 := w0t, b1 := w0t, b2 := 0,
                 a0 := w0t + 1, a1 := w0t - 1, a2 := 0 }
    | .lowPass2 =>
        let alpha := Real.sin w0 / (2 * q)
        { s with b0 := (1 - cosW0) / 2, b1 := 1 - cosW0, b2 := (1 - cosW0) / 2,
                 a0 := 1 + alpha, a1 := -2 * cosW0, a2 := 1 - alpha }
    | .lowShelf =>
        let alpha := Real.sin w0 / 2 * (1 / q)
        { s with
          b0 := a * ((a + 1) - (a - 1) * cosW0 + 2 * Real.sqrt a * alpha),
          b1 := 2 * a * ((a - 1) - (a + 1) * cosW0),
          b2 := a * ((a + 1) - (a - 1) * cosW0 - 2 * Real.sqrt a * alpha),
          a0 := (a + 1) + (a - 1) * cosW0 + 2 * Real.sqrt a * alpha,
          a1 := -2 * ((a - 1) + (a + 1) * cosW0),
          a2 := (a + 1) + (a - 1) * cosW0 - 2 * Real.sqrt a * alpha }
    | .highPass =>
        let w0t := Real.tan (w0 / 2)
        { s with b0 := 1, b1 := -1, b2 := 0,
                 a0 := w0t + 1, a1 := w0t - 1, a2 := 0 }
    | .highPass2 =>
        let alpha := Real.sin w0 / (2 * q)
        { s with b0 := (1 + cosW0) / 2, b1 := -(1 + cosW0), b2 := (1 + cosW0) / 2,
                 a0 := 1 + alpha, a1 := -2 * cosW0, a2 := 1 - alpha }
    | .highShelf =>
        let alpha := Real.sin w0 / 2 * (1 / q)
        { s with
          b0 := a * ((a + 1) + (a - 1) * cosW0 + 2 * Real.sqrt a * alpha),
          b1 := -2 * a * ((a - 1) + (a + 1) * cosW0),
          b2 := a * ((a + 1) + (a - 1) * cosW0 - 2 * Real.sqrt a * alpha),
          a0 := (a + 1) - (a - 1) * cosW0 + 2 * Real.sqrt a * alpha,
          a1 := 2 * ((a - 1) - (a + 1) * cosW0),
          a2 := (a + 1) - (a - 1) * cosW0 - 2 * Real.sqrt a * alpha }
    | .peak =>
        let alpha := Real.sin w0 / (2 * q)
        { s with b0 := 1 + alpha * a, b1 := -2 * cosW0, b2 := 1 - alpha * a,
                 a0 := 1 + alpha / a, a1 := -2 * cosW0, a2 := 1 - alpha / a }
    | .notch =>
        let alpha := Real.sin w0 / (2 * q)
        { s with b0 := 1, b1 := -2 * cosW0, b2 := 1,
                 a0 := 1 + alpha, a1 := -2 * cosW0, a2 := 1 - alpha }
  { s with b0 := s.b0 / s.a0, b1 := s.b1 / s.a0, b2 := s.b2 / s.a0,
           a1 := s.a1 / s.a0, a2 := s.a2 / s.a0 }

/-- FilterState::process in src/src/filter.rs: the direct form I recurrence.
Returns the output sample together with the updated state. -/
noncomputable def process (s : FilterState) (sample : ℝ) : ℝ × FilterState :=
  let out := s.b0 * sample + s.b1 * s.z1 + s.b2 * s.z2 - s.a1 * s.y1 - s.a2 * s.y2
  (out, { s with z2 := s.z1, z1 := sample, y2 := s.y1, y1 := out })

/-- The complex frequency response h computed inside FilterState::gain_at in
src/src/filter.rs: the stored coefficients are multiplied back by the stored
a0 field, the leading denominator term is the a0 field itself, and the
evaluation point is exp(-i·w) with w = 2π·freq/sampleRate. -/
noncomputable def freqResponse (s : FilterState) (freq sampleRate : ℝ) : ℂ :=
  let w := 2 * Real.pi * freq / sampleRate
  let e1 : ℂ := Complex.exp (-(w : ℂ) * Complex.I)
  let e2 : ℂ := Complex.exp (-(2 * w : ℂ) * Complex.I)
  (((s.b0 * s.a0 : ℝ) : ℂ) + ((s.b1 * s.a0 : ℝ) : ℂ) * e1 + ((s.b2 * s.a0 : ℝ) : ℂ) * e2) /
    (((s.a0 : ℝ) : ℂ) + ((s.a1 * s.a0 : ℝ) : ℂ) * e1 + ((s.a2 * s.a0 : ℝ) : ℂ) * e2)

/-- FilterState::gain_at in src/src/filter.rs: 20·log10 of the magnitude of
the frequency response. -/
noncomputable def gainAt (s : FilterState) (freq sampleRate : ℝ) : ℝ :=
  20 * Real.logb 10 (Complex.abs (s.freqResponse freq sampleRate))

end FilterState

/-- The raw cookbook coefficients, before the division by a0, exactly as the
per-kind branch of set_params_inner computes them.  This second definition
follows the words of the specification (the raw cookbook forms) and serves
as the comparison point for the normalization claim. -/
structure RawCoeffs where
  b0 : ℝ
  b1 : ℝ
  b2 : ℝ
  a0 : ℝ
  a1 : ℝ
  a2 : ℝ

/-- The per-kind cookbook branch of set_params_inner, yielding the six raw
coefficients. -/
noncomputable def rawCoeffs (freq gain q : ℝ) (kind : FilterKind)
    (sampleRate : ℝ) : RawCoeffs :=
  let a := (10 : ℝ) ^ (gain / 40)
  let w0 := 2 * Real.pi * freq / sampleRate
  let cosW0 := Real.cos w0
  match kind with
  | .lowPass =>
      let w0t := Real.tan (w0 / 2)
      ⟨w0t, w0t, 0, w0t + 1, w0t - 1, 0⟩
  | .lowPass2 =>
      let alpha := Real.sin w0 / (2 * q)
      ⟨(1 - cosW0) / 2, 1 - cosW0, (1 - cosW0) / 2, 1 + alpha, -2 * cosW0, 1 - alpha⟩
  | .lowShelf =>
      let alpha := Real.sin w0 / 2 * (1 / q)
      ⟨a * ((a + 1) - (a - 1) * cosW0 + 2 * Real.sqrt a * alpha),
       2 * a * ((a - 1) - (a + 1) * cosW0),
       a * ((a + 1) - (a - 1) * cosW0 - 2 * Real.sqrt a * alpha),
       (a + 1) + (a - 1) * cosW0 + 2 * Real.sqrt a * alpha,
       -2 * ((a - 1) + (a + 1) * cosW0),
       (a + 1) + (a - 1) * cosW0 - 2 * Real.sqrt a * alpha⟩
  | .highPass =>
      let w0t := Real.tan (w0 / 2)
      ⟨1, -1, 0, w0t + 1, w0t - 1, 0⟩
  | .highPass2 =>
      let alpha := Real.sin w0 / (2 * q)
      ⟨(1 + cosW0) / 2, -(1 + cosW0), (1 + cosW0) / 2, 1 + alpha, -2 * cosW0, 1 - alpha⟩
  | .highShelf =>
      let alpha := Real.sin w0 / 2 * (1 / q)
      ⟨a * ((a + 1) + (a - 1) * cosW0 + 2 * Real.sqrt a * alpha),
       -2 * a * ((a - 1) + (a + 1) * cosW0),
       a * ((a + 1) + (a - 1) * cosW0 - 2 * Real.sqrt a * alpha),
       (a + 1) - (a - 1) * cosW0 + 2 * Real.sqrt a * alpha,
       2 * ((a - 1) - (a + 1) * cosW0),
       (a + 1) - (a - 1) * cosW0 - 2 * Real.sqrt a * alpha⟩
  | .peak =>
      let alpha := Real.sin w0 / (2 * q)
      ⟨1 + alpha * a, -2 * cosW0, 1 - alpha * a, 1 + alpha / a, -2 * cosW0, 1 - alpha / a⟩
  | .notch =>
      let alpha := Real.sin w0 / (2 * q)
      ⟨1, -2 * cosW0, 1, 1 + alpha, -2 * cosW0, 1 - alpha⟩

/-- Modelled from the spec: one band of the cascade in Freeq::process
(src/src/lib.rs).  The enabled flag checked at src/src/lib.rs line 131 is not
declared on FilterState inside src (it is injected by the parameter-derive
framework); the specification places a per-band enabled flag in the data
model, so the band is modelled as a filter state paired with that flag. -/
structure BandState where
  state : FilterState
  enabled : Bool

/-- The inner band loop of Freeq::process (src/src/lib.rs lines 130 to 136)
for one sample on one channel: a disabled band is skipped with continue,
an enabled band processes the running sample value and stores its new
state; the running value feeds the next band. -/
noncomputable def processBands : List BandState → ℝ → ℝ × List BandState
  | [], x => (x, [])
  | b :: bs, x =>
      if b.enabled then
        ((processBands bs (FilterState.process b.state x).1).1,
          { b with state := (FilterState.process b.state x).2 } ::
            (processBands bs (FilterState.process b.state x).1).2)
      else
        ((processBands bs x).1, b :: (processBands bs x).2)

/-- Freeq::FFT_SIZE in src/src/lib.rs. -/
def FFT_SIZE : Nat := 4096

/-- The spectrum-analyzer buffering state of struct Freeq in src/src/lib.rs:
the two overlapped sample windows and the write cursor.  The buffers are
modelled as functions from index to sample value. -/
structure Analyzer where
  bufA : Nat → ℝ
  bufB : Nat → ℝ
  current : Nat

/-- One per-sample step of the analyzer portion of Freeq::process
(src/src/lib.rs lines 148 to 160): the DC-filtered sample is written at
index current into window A and at index (current + FFT_SIZE/2) mod FFT_SIZE
into window B, the cursor advances mod FFT_SIZE, and compute_fft is
triggered with is_b = false when the cursor wraps to 0 and with
is_b = true when it reaches FFT_SIZE/2.  The triggers are recorded as a
list of is_b flags. -/
noncomputable def analyzerStep (st : Analyzer) (x : ℝ) : Analyzer × List Bool :=
  let iA := st.current
  let iB := (st.current + FFT_SIZE / 2) % FFT_SIZE
  let cur := (st.current + 1) % FFT_SIZE
  (⟨Function.update st.bufA iA x, Function.update st.bufB iB x, cur⟩,
    if cur = 0 then [false] else if cur = FFT_SIZE / 2 then [true] else [])

/-- The analyzer steps iterated over the samples of a block, concatenating
the compute_fft triggers in order. -/
noncomputable def runAnalyzer (st : Analyzer) : List ℝ → Analyzer × List Bool
  | [] => (st, [])
  | x :: xs =>
      ((runAnalyzer (analyzerStep st x).1 xs).1,
        (analyzerStep st x).2 ++ (runAnalyzer (analyzerStep st x).1 xs).2)

/-- The cursor-only projection of the trigger schedule: the compute_fft
triggers emitted over n samples starting from a given cursor.  The triggers
of analyzerStep depend only on the cursor, never on the sample values. -/
def cursorTriggers : Nat → Nat → List Bool
  | _, 0 => []
  | c, n + 1 =>
      (if (c + 1) % FFT_SIZE = 0 then [false]
       else if (c + 1) % FFT_SIZE = FFT_SIZE / 2 then [true] else []) ++
        cursorTriggers ((c + 1) % FFT_SIZE) n

/-- A concrete filter state with a0 = 2, used as a witness input. -/
def demoState2 : FilterState := ⟨1, 0, 0, 2, 0, 0, 0, 0, 0, 0⟩

/-- A concrete two-band cascade whose second band is disabled, used as a
witness input. -/
def demoBands : List BandState :=
  [⟨⟨1, 0, 0, 1, 0, 0, 0, 0, 0, 0⟩, true⟩, ⟨⟨1, 0, 0, 1, 0, 0, 0, 0, 0, 0⟩, false⟩]

/-- The freshly constructed analyzer state of Freeq::new in src/src/lib.rs:
zeroed buffers and cursor 0. -/
def initAnalyzer : Analyzer := ⟨fun _ => 0, fun _ => 0, 0⟩

/-- C1: the claim says next and prev navigate cyclically mod 8.  The code
computes (id + 1) % MAX_ID and (id + MAX_ID - 1) % MAX_ID with MAX_ID = 7,
so Notch (id 7) is skipped: next of Peak is LowPass rather than Notch,
next of Notch is LowPass2 rather than LowPass, prev followed by next does
not return Notch to itself, and eight applications of next do not return
LowPass to itself.  This theorem evaluates the code at those inputs. -/
theorem C1_next_prev_mod7_evidence :
    FilterKind.next .peak = .lowPass ∧
    FilterKind.next .notch = .lowPass2 ∧
    (FilterKind.id .notch + 1) % 8 = 0 ∧
    FilterKind.from_id ((FilterKind.id .notch + 1) % 8) = some .lowPass ∧
    FilterKind.next (FilterKind.prev .notch) = .lowPass ∧
    FilterKind.next^[8] .lowPass = .lowPass2 := by
  decide

/-- C9: from_id inverts id on all eight kinds, covers exactly the ids 0 to 7,
rejects every id above 7, and the Param::set resolution maps every invalid
id to Peak. -/
theorem C9_from_id_roundtrip :
    (∀ k : FilterKind, FilterKind.from_id k.id = some k) ∧
    (∀ i : Nat, i ≤ 7 → ∃ k : FilterKind, FilterKind.from_id i = some k ∧ k.id = i) ∧
    (∀ i : Nat, 7 < i → FilterKind.from_id i = none) ∧
    (∀ i : Nat, FilterKind.from_id i = none → FilterKind.kindSet i = .peak) := by
  refine ⟨?_, ?_, ?_, ?_⟩
  · intro k; cases k <;> rfl
  · intro i hi; interval_cases i <;> exact ⟨_, rfl, rfl⟩
  · intro i hi; unfold FilterKind.from_id; repeat rw [if_neg (by omega)]
  · intro i h; unfold FilterKind.kindSet; rw [h]; rfl

/-- Witness for C9 at the concrete invalid id 99. -/
theorem C9_witness :
    FilterKind.from_id 99 = none ∧ FilterKind.kindSet 99 = .peak :=
  ⟨C9_from_id_roundtrip.2.2.1 99 (by norm_num),
   C9_from_id_roundtrip.2.2.2 99 (C9_from_id_roundtrip.2.2.1 99 (by norm_num))⟩

/-- C4: process returns b0·x + b1·z1 + b2·z2 − a1·y1 − a2·y2 computed from
the pre-call fields and shifts the delay state z2 ← z1, z1 ← x, y2 ← y1,
y1 ← out. -/
theorem C4_process_recurrence (s : FilterState) (x : ℝ) :
    FilterState.process s x =
      (s.b0 * x + s.b1 * s.z1 + s.b2 * s.z2 - s.a1 * s.y1 - s.a2 * s.y2,
        { s with z2 := s.z1, z1 := x, y2 := s.y1,
                 y1 := s.b0 * x + s.b1 * s.z1 + s.b2 * s.z2 - s.a1 * s.y1 - s.a2 * s.y2 }) :=
  rfl

/-- C5: set_params_inner leaves the four delay fields exactly unchanged for
every state, every parameter tuple and every kind. -/
theorem C5_delay_state_preserved (s : FilterState) (freq gain q : ℝ)
    (k : FilterKind) (sr : ℝ) :
    (s.setParamsInner freq gain q k sr).z1 = s.z1 ∧
    (s.setParamsInner freq gain q k sr).z2 = s.z2 ∧
    (s.setParamsInner freq gain q k sr).y1 = s.y1 ∧
    (s.setParamsInner freq gain q k sr).y2 = s.y2 := by
  cases k <;> exact ⟨rfl, rfl, rfl, rfl⟩

/-- The stored coefficients after set_params_inner: the five fields b0, b1,
b2, a1, a2 are the raw cookbook values divided by the raw a0, while the a0
field keeps the raw a0 itself.  Shared helper for the normalization and
response theorems. -/
theorem setParams_eq_raw (s : FilterState) (freq gain q : ℝ) (k : FilterKind)
    (sr : ℝ) :
    (s.setParamsInner freq gain q k sr).b0
        = (rawCoeffs freq gain q k sr).b0 / (rawCoeffs freq gain q k sr).a0 ∧
    (s.setParamsInner freq gain q k sr).b1
        = (rawCoeffs freq gain q k sr).b1 / (rawCoeffs freq gain q k sr).a0 ∧
    (s.setParamsInner freq gain q k sr).b2
        = (rawCoeffs freq gain q k sr).b2 / (rawCoeffs freq gain q k sr).a0 ∧
    (s.setParamsInner freq gain q k sr).a1
        = (rawCoeffs freq gain q k sr).a1 / (rawCoeffs freq gain q k sr).a0 ∧
    (s.setParamsInner freq gain q k sr).a2
        = (rawCoeffs freq gain q k sr).a2 / (rawCoeffs freq gain q k sr).a0 ∧
    (s.setParamsInner freq gain q k sr).a0 = (rawCoeffs freq gain q k sr).a0 := by
  cases k <;> exact ⟨rfl, rfl, rfl, rfl, rfl, rfl⟩

/-- C2 counterexample: at the in-range parameters freq = 12000, gain = 0,
q = 1/2, kind = LowPass, sampleRate = 48000 the raw a0 is tan(π/4) + 1 = 2,
and the stored a0 field keeps that raw value 2, not 1: the division by a0 is
applied to only five of the six coefficients. -/
theorem C2_counterexample :
    (FilterState.default.setParamsInner 12000 0 (1/2) .lowPass 48000).a0 = 2 ∧
    (2 : ℝ) ≠ 1 := by
  constructor
  · show Real.tan ((2 * Real.pi * (12000 : ℝ) / 48000) / 2) + 1 = 2
    rw [show (2 * Real.pi * (12000 : ℝ) / 48000) / 2 = Real.pi / 4 by ring,
      Real.tan_pi_div_four]
    norm_num
  · norm_num

/-- C2 amended: after set_params_inner the five stored coefficients b0, b1,
b2, a1, a2 equal the raw cookbook values divided by the raw a0, uniformly in
the kind branch, while the stored a0 field retains the raw (unnormalized) a0
value; the leading denominator coefficient is only implicitly 1. -/
theorem C2_five_coeffs_normalized (s : FilterState) (freq gain q : ℝ)
    (k : FilterKind) (sr : ℝ) :
    (s.setParamsInner freq gain q k sr).b0
        = (rawCoeffs freq gain q k sr).b0 / (rawCoeffs freq gain q k sr).a0 ∧
    (s.setParamsInner freq gain q k sr).b1
        = (rawCoeffs freq gain q k sr).b1 / (rawCoeffs freq gain q k sr).a0 ∧
    (s.setParamsInner freq gain q k sr).b2
        = (rawCoeffs freq gain q k sr).b2 / (rawCoeffs freq gain q k sr).a0 ∧
    (s.setParamsInner freq gain q k sr).a1
        = (rawCoeffs freq gain q k sr).a1 / (rawCoeffs freq gain q k sr).a0 ∧
    (s.setParamsInner freq gain q k sr).a2
        = (rawCoeffs freq gain q k sr).a2 / (rawCoeffs freq gain q k sr).a0 ∧
    (s.setParamsInner freq gain q k sr).a0 = (rawCoeffs freq gain q k sr).a0 :=
  setParams_eq_raw s freq gain q k sr

/-- Scaling both lines of the quotient computed by gain_at by a common
nonzero a0 cancels.  Shared helper for the response theorems. -/
theorem quotient_scale (a0 b0 b1 b2 a1 a2 : ℝ) (E1 E2 : ℂ) (h : a0 ≠ 0) :
    (((b0 * a0 : ℝ) : ℂ) + ((b1 * a0 : ℝ) : ℂ) * E1 + ((b2 * a0 : ℝ) : ℂ) * E2) /
      (((a0 : ℝ) : ℂ) + ((a1 * a0 : ℝ) : ℂ) * E1 + ((a2 * a0 : ℝ) : ℂ) * E2)
    = ((b0 : ℂ) + (b1 : ℂ) * E1 + (b2 : ℂ) * E2) /
        (1 + (a1 : ℂ) * E1 + (a2 : ℂ) * E2) := by
  have ha : (a0 : ℂ) ≠ 0 := Complex.ofReal_ne_zero.mpr h
  rw [show (((b0 * a0 : ℝ) : ℂ) + ((b1 * a0 : ℝ) : ℂ) * E1 + ((b2 * a0 : ℝ) : ℂ) * E2)
        = (a0 : ℂ) * ((b0 : ℂ) + (b1 : ℂ) * E1 + (b2 : ℂ) * E2) by push_cast; ring,
    show (((a0 : ℝ) : ℂ) + ((a1 * a0 : ℝ) : ℂ) * E1 + ((a2 * a0 : ℝ) : ℂ) * E2)
        = (a0 : ℂ) * (1 + (a1 : ℂ) * E1 + (a2 : ℂ) * E2) by push_cast; ring,
    mul_div_mul_left _ _ ha]

/-- For a state with nonzero a0 field, the response computed by gain_at
equals the textbook quotient over the stored coefficients with leading
denominator coefficient 1. -/
theorem freqResponse_normalized (s : FilterState) (freq sr : ℝ) (h : s.a0 ≠ 0) :
    s.freqResponse freq sr =
      ((s.b0 : ℂ)
          + (s.b1 : ℂ) * Complex.exp (-((2 * Real.pi * freq / sr : ℝ) : ℂ) * Complex.I)
          + (s.b2 : ℂ) * Complex.exp (-(2 * (2 * Real.pi * freq / sr : ℝ) : ℂ) * Complex.I)) /
      (1 + (s.a1 : ℂ) * Complex.exp (-((2 * Real.pi * freq / sr : ℝ) : ℂ) * Complex.I)
          + (s.a2 : ℂ) * Complex.exp (-(2 * (2 * Real.pi * freq / sr : ℝ) : ℂ) * Complex.I)) := by
  unfold FilterState.freqResponse
  exact quotient_scale s.a0 s.b0 s.b1 s.b2 s.a1 s.a2 _ _ h

/-- C6: gain_at returns 20·log10 of the magnitude of
H(ω) = (b0 + b1·e^(-iω) + b2·e^(-2iω)) / (1 + a1·e^(-iω) + a2·e^(-2iω))
over the stored normalized coefficients, with ω = 2π·freq/sampleRate,
whenever the stored a0 is nonzero.  The Rust function takes an immutable
reference, so it is modelled as a pure function of the state. -/
theorem C6_gain_at_formula (s : FilterState) (freq sr : ℝ) (h : s.a0 ≠ 0) :
    s.gainAt freq sr =
      20 * Real.logb 10 (Complex.abs
        (((s.b0 : ℂ)
            + (s.b1 : ℂ) * Complex.exp (-((2 * Real.pi * freq / sr : ℝ) : ℂ) * Complex.I)
            + (s.b2 : ℂ) * Complex.exp (-(2 * (2 * Real.pi * freq / sr : ℝ) : ℂ) * Complex.I)) /
         (1 + (s.a1 : ℂ) * Complex.exp (-((2 * Real.pi * freq / sr : ℝ) : ℂ) * Complex.I)
            + (s.a2 : ℂ) * Complex.exp (-(2 * (2 * Real.pi * freq / sr : ℝ) : ℂ) * Complex.I)))) := by
  unfold FilterState.gainAt
  rw [freqResponse_normalized s freq sr h]

/-- Witness for C6 at the concrete state demoState2 (a0 = 2) and the point
freq = 1, sampleRate = 4. -/
theorem C6_witness :
    demoState2.gainAt 1 4 =
      20 * Real.logb 10 (Complex.abs
        (((demoState2.b0 : ℂ)
            + (demoState2.b1 : ℂ) * Complex.exp (-((2 * Real.pi * 1 / 4 : ℝ) : ℂ) * Complex.I)
            + (demoState2.b2 : ℂ) * Complex.exp (-(2 * (2 * Real.pi * 1 / 4 : ℝ) : ℂ) * Complex.I)) /
         (1 + (demoState2.a1 : ℂ) * Complex.exp (-((2 * Real.pi * 1 / 4 : ℝ) : ℂ) * Complex.I)
            + (demoState2.a2 : ℂ) * Complex.exp (-(2 * (2 * Real.pi * 1 / 4 : ℝ) : ℂ) * Complex.I)))) :=
  C6_gain_at_formula demoState2 1 4 (by norm_num [demoState2])

/-- C10: the a0 field is observationally inert: process never reads it (the
output and all other fields are independent of it, and it is carried through
unchanged), and gain_at returns the same value with any nonzero stored a0 as
with a0 = 1, because the multiplied-back a0 factors cancel. -/
theorem C10_a0_unobservable (s : FilterState) (c x freq sr : ℝ) :
    (FilterState.process { s with a0 := c } x).1 = (FilterState.process s x).1 ∧
    (FilterState.process { s with a0 := c } x).2
        = { (FilterState.process s x).2 with a0 := c } ∧
    (c ≠ 0 → FilterState.gainAt { s with a0 := c } freq sr
        = FilterState.gainAt { s with a0 := 1 } freq sr) := by
  refine ⟨rfl, rfl, fun hc => ?_⟩
  unfold FilterState.gainAt
  rw [freqResponse_normalized _ freq sr (by simpa using hc),
    freqResponse_normalized _ freq sr (by norm_num)]

/-- Witness for C10 at the concrete state demoState2 with c = 2. -/
theorem C10_witness :
    (FilterState.process { demoState2 with a0 := 2 } 1).1
        = (FilterState.process demoState2 1).1 ∧
    (FilterState.process { demoState2 with a0 := 2 } 1).2
        = { (FilterState.process demoState2 1).2 with a0 := 2 } ∧
    FilterState.gainAt { demoState2 with a0 := 2 } 1 4
        = FilterState.gainAt { demoState2 with a0 := 1 } 1 4 :=
  ⟨(C10_a0_unobservable demoState2 2 1 1 4).1,
   (C10_a0_unobservable demoState2 2 1 1 4).2.1,
   (C10_a0_unobservable demoState2 2 1 1 4).2.2 (by norm_num)⟩

/-- The band loop preserves the number of bands. -/
theorem processBands_length (bs : List BandState) (x : ℝ) :
    (processBands bs x).2.length = bs.length := by
  induction bs generalizing x with
  | nil => rfl
  | cons b bs ih => by_cases hb : b.enabled <;> simp [processBands, hb, ih]

/-- C3: a band whose enabled flag is false is skipped entirely: the cascade
output (and every other band's updated state) is as if that band were absent
from the list, and the disabled band itself is returned unchanged, so its
delay fields z1, z2, y1, y2 are frozen and re-enabling resumes from them. -/
theorem C3_disabled_band_skipped (bs : List BandState) (x : ℝ) (j : Nat)
    (hj : j < bs.length) (hdis : (bs.get ⟨j, hj⟩).enabled = false) :
    (processBands bs x).1 = (processBands (bs.eraseIdx j) x).1 ∧
    (processBands bs x).2.get? j = some (bs.get ⟨j, hj⟩) ∧
    (processBands bs x).2.eraseIdx j = (processBands (bs.eraseIdx j) x).2 := by
  induction bs generalizing x j with
  | nil => exact absurd hj (by simp)
  | cons b bs ih =>
      cases j with
      | zero =>
          have hb : b.enabled = false := hdis
          simp [processBands, hb]
      | succ j =>
          have hj' : j < bs.length := by simpa using hj
          have hdis' : (bs.get ⟨j, hj'⟩).enabled = false := hdis
          by_cases hb : b.enabled
          · obtain ⟨h1, h2, h3⟩ := ih (FilterState.process b.state x).1 j hj' hdis'
            simp only [processBands, hb, if_true, List.eraseIdx_cons_succ,
              List.get?_cons_succ]
            exact ⟨h1, h2, by rw [h3]⟩
          · obtain ⟨h1, h2, h3⟩ := ih x j hj' hdis'
            simp only [processBands, hb, if_false, Bool.false_eq_true,
              List.eraseIdx_cons_succ, List.get?_cons_succ]
            exact ⟨h1, h2, by rw [h3]⟩

/-- Witness for C3 at a concrete two-band cascade whose second band is
disabled, fed the sample 1. -/
theorem C3_witness :
    (processBands demoBands 1).1 = (processBands (demoBands.eraseIdx 1) 1).1 ∧
    (processBands demoBands 1).2.get? 1
        = some (demoBands.get ⟨1, by norm_num [demoBands]⟩) ∧
    (processBands demoBands 1).2.eraseIdx 1
        = (processBands (demoBands.eraseIdx 1) 1).2 :=
  C3_disabled_band_skipped demoBands 1 1 (by norm_num [demoBands]) rfl

/-- The trigger sequence of a block depends only on the starting cursor and
the number of samples. -/
theorem runAnalyzer_triggers (xs : List ℝ) (st : Analyzer) :
    (runAnalyzer st xs).2 = cursorTriggers st.current xs.length := by
  induction xs generalizing st with
  | nil => rfl
  | cons x xs ih =>
      rw [show (runAnalyzer st (x :: xs)).2
            = (analyzerStep st x).2 ++ (runAnalyzer (analyzerStep st x).1 xs).2 from rfl,
        ih, show (analyzerStep st x).1.current = (st.current + 1) % FFT_SIZE from rfl]
      rfl

/-- Closed form of the trigger schedule over at most one cursor cycle: a
true trigger (window B) fires exactly if the cursor passes 2048, and a false
trigger (window A) fires exactly if the cursor reaches 4096 and wraps. -/
theorem cursorTriggers_eq : ∀ (n c : Nat), c < 4096 → c + n ≤ 4096 →
    cursorTriggers c n =
      (if c + 1 ≤ 2048 ∧ 2048 ≤ c + n then [true] else []) ++
      (if c + n = 4096 then [false] else [])
  | 0, c, hc, hn => by
      rw [cursorTriggers, if_neg (by omega), if_neg (by omega)]; rfl
  | n + 1, c, hc, hn => by
      rw [cursorTriggers, show FFT_SIZE = 4096 from rfl, show (4096 : Nat) / 2 = 2048 from rfl]
      by_cases h4 : c + 1 = 4096
      · have hn0 : n = 0 := by omega
        subst hn0
        rw [h4, Nat.mod_self, if_pos rfl, cursorTriggers,
          if_neg (by omega), if_pos (by omega)]
        rfl
      · rw [Nat.mod_eq_of_lt (by omega), if_neg (by omega),
          cursorTriggers_eq n (c + 1) (by omega) (by omega)]
        by_cases h2 : c + 1 = 2048
        · have hc2 : c = 2047 := by omega
          subst hc2
          rw [if_pos h2,
            if_neg (by omega : ¬(2047 + 1 + 1 ≤ 2048 ∧ 2048 ≤ 2047 + 1 + n)),
            if_pos (by omega : 2047 + 1 ≤ 2048 ∧ 2048 ≤ 2047 + (n + 1)),
            show 2047 + 1 + n = 2047 + (n + 1) from by omega]
          simp
        · rw [if_neg h2, List.nil_append,
            if_congr (by omega : (c + 1 + 1 ≤ 2048 ∧ 2048 ≤ c + 1 + n) ↔
              (c + 1 ≤ 2048 ∧ 2048 ≤ c + (n + 1))) rfl rfl,
            show c + 1 + n = c + (n + 1) from by omega]

set_option maxRecDepth 4000

/-- C8: each incoming sample is written to window A at the cursor index and
to window B at the index offset by 2048 mod 4096; compute_fft fires with
is_b = false exactly when the incremented cursor wraps to 0 and with
is_b = true exactly when it reaches 2048; and over one full 4096-sample
cursor cycle starting at 0 it fires exactly twice, once for window B when
the cursor reaches 2048 and once for window A when it wraps to 0. -/
theorem C8_overlap_schedule :
    (∀ (st : Analyzer) (x : ℝ),
      (analyzerStep st x).1.bufA = Function.update st.bufA st.current x ∧
      (analyzerStep st x).1.bufB
          = Function.update st.bufB ((st.current + 2048) % 4096) x) ∧
    (∀ (st : Analyzer) (x : ℝ),
      (analyzerStep st x).2 =
        if (st.current + 1) % 4096 = 0 then [false]
        else if (st.current + 1) % 4096 = 2048 then [true] else []) ∧
    (∀ xs : List ℝ, xs.length = 4096 → ∀ st : Analyzer, st.current = 0 →
      (runAnalyzer st xs).2 = [true, false]) := by
  refine ⟨fun st x => ⟨rfl, rfl⟩, fun st x => rfl, fun xs hlen st hc => ?_⟩
  rw [runAnalyzer_triggers, hc, hlen,
    cursorTriggers_eq 4096 0 (by omega) (by omega)]
  norm_num

/-- Witness for C8: a concrete all-zero block of 4096 samples fed to the
freshly constructed analyzer triggers exactly the two fft computations, the
window B one first. -/
theorem C8_witness :
    (runAnalyzer initAnalyzer (List.replicate 4096 (0 : ℝ))).2 = [true, false] :=
  C8_overlap_schedule.2.2 (List.replicate 4096 (0 : ℝ)) (List.length_replicate 4096 0)
    initAnalyzer rfl

/-- The quadratic 1 - 2·cos(w)·z + z² vanishes at z = exp(-i·w): the
gain_at evaluation point at the design frequency is a root of the gainless
notch numerator. -/
theorem one_sub_two_cos_exp (w : ℝ) :
    (1 : ℂ) - 2 * ((Real.cos w : ℝ) : ℂ) * Complex.exp (-((w : ℝ) : ℂ) * Complex.I)
      + Complex.exp (-(2 * (w : ℝ) : ℂ) * Complex.I) = 0 := by
  have hcos : ((Real.cos w : ℝ) : ℂ)
      = (Complex.exp ((w : ℂ) * Complex.I) + Complex.exp (-(w : ℂ) * Complex.I)) / 2 := by
    rw [Complex.ofReal_cos]; rfl
  have h1 : Complex.exp ((w : ℂ) * Complex.I) * Complex.exp (-(w : ℂ) * Complex.I) = 1 := by
    rw [← Complex.exp_add, show (w : ℂ) * Complex.I + -(w : ℂ) * Complex.I = 0 from by ring,
      Complex.exp_zero]
  have h2 : Complex.exp (-(2 * (w : ℝ) : ℂ) * Complex.I)
      = Complex.exp (-(w : ℂ) * Complex.I) * Complex.exp (-(w : ℂ) * Complex.I) := by
    rw [← Complex.exp_add]; congr 1; ring
  rw [hcos, h2]
  linear_combination -h1

/-- The gainless biquad denominator at the design frequency collapses to
alpha·(1 - exp(-2iw)). -/
theorem den_peak_notch (w alpha : ℝ) :
    ((1 + alpha : ℝ) : ℂ)
      + ((-2 * Real.cos w : ℝ) : ℂ) * Complex.exp (-((w : ℝ) : ℂ) * Complex.I)
      + ((1 - alpha : ℝ) : ℂ) * Complex.exp (-(2 * (w : ℝ) : ℂ) * Complex.I)
    = ((alpha : ℝ) : ℂ) * (1 - Complex.exp (-(2 * (w : ℝ) : ℂ) * Complex.I)) := by
  have h := one_sub_two_cos_exp w
  push_cast at h ⊢
  linear_combination h

/-- The notch numerator vanishes exactly at the design frequency. -/
theorem num_notch (w : ℝ) :
    ((1 : ℝ) : ℂ)
      + ((-2 * Real.cos w : ℝ) : ℂ) * Complex.exp (-((w : ℝ) : ℂ) * Complex.I)
      + ((1 : ℝ) : ℂ) * Complex.exp (-(2 * (w : ℝ) : ℂ) * Complex.I) = 0 := by
  have h := one_sub_two_cos_exp w
  push_cast at h ⊢
  linear_combination h

/-- For 0 < w < π the evaluation point exp(-2iw) is not 1, so the collapsed
denominator is nonzero. -/
theorem exp_neg_two_mul_ne_one (w : ℝ) (h0 : 0 < w) (hpi : w < Real.pi) :
    Complex.exp (-(2 * (w : ℝ) : ℂ) * Complex.I) ≠ 1 := by
  intro hcontra
  rw [Complex.exp_eq_one_iff] at hcontra
  obtain ⟨n, hn⟩ := hcontra
  have him := congrArg Complex.im hn
  simp at him
  have hπ := Real.pi_pos
  have h1 : (n : ℝ) < 0 := by nlinarith
  have h2 : (-1 : ℝ) < (n : ℝ) := by nlinarith
  have h1' : n < 0 := by exact_mod_cast h1
  have h2' : (-1 : ℤ) < n := by exact_mod_cast h2
  omega

/-- The raw Peak coefficients at gain 0: since A = 10^(0/40) = 1, the boost
and cut factors cancel and the numerator row equals the denominator row. -/
theorem rawCoeffs_peak_gain0 (freq q sr : ℝ) :
    rawCoeffs freq 0 q .peak sr =
      ⟨1 + Real.sin (2 * Real.pi * freq / sr) / (2 * q),
       -2 * Real.cos (2 * Real.pi * freq / sr),
       1 - Real.sin (2 * Real.pi * freq / sr) / (2 * q),
       1 + Real.sin (2 * Real.pi * freq / sr) / (2 * q),
       -2 * Real.cos (2 * Real.pi * freq / sr),
       1 - Real.sin (2 * Real.pi * freq / sr) / (2 * q)⟩ := by
  unfold rawCoeffs
  rw [show ((0 : ℝ) / 40) = 0 from by norm_num, Real.rpow_zero]
  norm_num

/-- The raw Notch coefficients; the gain parameter is not used. -/
theorem rawCoeffs_notch (freq gain q sr : ℝ) :
    rawCoeffs freq gain q .notch sr =
      ⟨1, -2 * Real.cos (2 * Real.pi * freq / sr), 1,
       1 + Real.sin (2 * Real.pi * freq / sr) / (2 * q),
       -2 * Real.cos (2 * Real.pi * freq / sr),
       1 - Real.sin (2 * Real.pi * freq / sr) / (2 * q)⟩ := rfl

/-- After set_params_inner with raw a0 nonzero, the response computed by
gain_at is the quotient of the raw coefficient polynomials: the stored
normalization and the multiply-back by the stored a0 cancel. -/
theorem freqResponse_setParams (s : FilterState) (freq gain q sr f2 sr2 : ℝ)
    (k : FilterKind) (h : (rawCoeffs freq gain q k sr).a0 ≠ 0) :
    (s.setParamsInner freq gain q k sr).freqResponse f2 sr2 =
      (((rawCoeffs freq gain q k sr).b0 : ℂ)
          + ((rawCoeffs freq gain q k sr).b1 : ℂ)
              * Complex.exp (-((2 * Real.pi * f2 / sr2 : ℝ) : ℂ) * Complex.I)
          + ((rawCoeffs freq gain q k sr).b2 : ℂ)
              * Complex.exp (-(2 * (2 * Real.pi * f2 / sr2 : ℝ) : ℂ) * Complex.I)) /
      (((rawCoeffs freq gain q k sr).a0 : ℂ)
          + ((rawCoeffs freq gain q k sr).a1 : ℂ)
              * Complex.exp (-((2 * Real.pi * f2 / sr2 : ℝ) : ℂ) * Complex.I)
          + ((rawCoeffs freq gain q k sr).a2 : ℂ)
              * Complex.exp (-(2 * (2 * Real.pi * f2 / sr2 : ℝ) : ℂ) * Complex.I)) := by
  obtain ⟨hb0, hb1, hb2, ha1, ha2, ha0⟩ := setParams_eq_raw s freq gain q k sr
  simp only [FilterState.freqResponse]
  rw [hb0, hb1, hb2, ha1, ha2, ha0, div_mul_cancel₀ _ h, div_mul_cancel₀ _ h,
    div_mul_cancel₀ _ h, div_mul_cancel₀ _ h, div_mul_cancel₀ _ h]

/-- A Peak band designed with gain 0 has gain_at equal to 0 dB exactly at
its center frequency, for every positive Q and every center frequency below
the Nyquist frequency. -/
theorem peak_gain0_center (s : FilterState) (freq q sr : ℝ)
    (hf : 0 < freq) (hsr : 2 * freq < sr) (hq : 0 < q) :
    (s.setParamsInner freq 0 q .peak sr).gainAt freq sr = 0 := by
  have hπ := Real.pi_pos
  have hsr0 : 0 < sr := by linarith
  have hW0 : 0 < 2 * Real.pi * freq / sr := by positivity
  have hWpi : 2 * Real.pi * freq / sr < Real.pi := by
    rw [div_lt_iff₀ hsr0]; nlinarith
  have hsin : 0 < Real.sin (2 * Real.pi * freq / sr) :=
    Real.sin_pos_of_pos_of_lt_pi hW0 hWpi
  have halpha : 0 < Real.sin (2 * Real.pi * freq / sr) / (2 * q) :=
    div_pos hsin (by linarith)
  have ha0 : (rawCoeffs freq 0 q .peak sr).a0 ≠ 0 := by
    rw [rawCoeffs_peak_gain0]
    exact ne_of_gt (by linarith)
  have hE2 : Complex.exp (-(2 * (2 * Real.pi * freq / sr : ℝ) : ℂ) * Complex.I) ≠ 1 :=
    exp_neg_two_mul_ne_one _ hW0 hWpi
  have hDne : ((1 + Real.sin (2 * Real.pi * freq / sr) / (2 * q) : ℝ) : ℂ)
      + ((-2 * Real.cos (2 * Real.pi * freq / sr) : ℝ) : ℂ)
          * Complex.exp (-((2 * Real.pi * freq / sr : ℝ) : ℂ) * Complex.I)
      + ((1 - Real.sin (2 * Real.pi * freq / sr) / (2 * q) : ℝ) : ℂ)
          * Complex.exp (-(2 * (2 * Real.pi * freq / sr : ℝ) : ℂ) * Complex.I) ≠ 0 := by
    rw [den_peak_notch (2 * Real.pi * freq / sr)
      (Real.sin (2 * Real.pi * freq / sr) / (2 * q))]
    exact mul_ne_zero (Complex.ofReal_ne_zero.mpr (ne_of_gt halpha))
      (sub_ne_zero.mpr (Ne.symm hE2))
  unfold FilterState.gainAt
  rw [freqResponse_setParams s freq 0 q sr freq sr .peak ha0, rawCoeffs_peak_gain0]
  rw [div_self hDne, map_one, Real.logb_one, mul_zero]

/-- A Notch band has frequency response exactly 0 at its center frequency:
the center frequency is completely rejected, for every positive Q and every
center frequency below the Nyquist frequency and every gain parameter. -/
theorem notch_center_response (s : FilterState) (freq gain q sr : ℝ)
    (hf : 0 < freq) (hsr : 2 * freq < sr) (hq : 0 < q) :
    (s.setParamsInner freq gain q .notch sr).freqResponse freq sr = 0 := by
  have hπ := Real.pi_pos
  have hsr0 : 0 < sr := by linarith
  have hW0 : 0 < 2 * Real.pi * freq / sr := by positivity
  have hWpi : 2 * Real.pi * freq / sr < Real.pi := by
    rw [div_lt_iff₀ hsr0]; nlinarith
  have hsin : 0 < Real.sin (2 * Real.pi * freq / sr) :=
    Real.sin_pos_of_pos_of_lt_pi hW0 hWpi
  have halpha : 0 < Real.sin (2 * Real.pi * freq / sr) / (2 * q) :=
    div_pos hsin (by linarith)
  have ha0 : (rawCoeffs freq gain q .notch sr).a0 ≠ 0 := by
    rw [rawCoeffs_notch]
    exact ne_of_gt (by linarith)
  rw [freqResponse_setParams s freq gain q sr freq sr .notch ha0, rawCoeffs_notch]
  rw [num_notch (2 * Real.pi * freq / sr), zero_div]

/-- C7 counterexample: a Notch designed with gain 0 at the in-range
parameters freq = 12000, q = 1/2, sampleRate = 48000 has frequency response
exactly 0 at its center frequency, so its center-frequency magnitude is not
within any reasonable tolerance of the unit magnitude that 0 dB denotes (in
exact arithmetic the dB value is negative infinity, not approximately 0). -/
theorem C7_counterexample :
    Complex.abs ((FilterState.default.setParamsInner 12000 0 (1/2) .notch
        48000).freqResponse 12000 48000) = 0 ∧
    ¬ (1/2 : ℝ) ≤ Complex.abs ((FilterState.default.setParamsInner 12000 0 (1/2) .notch
        48000).freqResponse 12000 48000) := by
  have h := notch_center_response FilterState.default 12000 0 (1/2) 48000
    (by norm_num) (by norm_num) (by norm_num)
  rw [h, map_zero]
  norm_num

/-- C7 amended: for Peak with gain 0 dB, any positive Q and any center
frequency below the Nyquist frequency, gain_at at the center frequency is
exactly 0 dB; for Notch under the same conditions the center frequency is
fully rejected: the frequency response there is exactly 0 (negative-infinite
dB), not approximately 0 dB. -/
theorem C7_center_gain (s : FilterState) (freq q sr : ℝ)
    (hf : 0 < freq) (hsr : 2 * freq < sr) (hq : 0 < q) :
    (s.setParamsInner freq 0 q .peak sr).gainAt freq sr = 0 ∧
    Complex.abs ((s.setParamsInner freq 0 q .notch sr).freqResponse freq sr) = 0 := by
  refine ⟨peak_gain0_center s freq q sr hf hsr hq, ?_⟩
  rw [notch_center_response s freq 0 q sr hf hsr hq, map_zero]

/-- Witness for C7 at the concrete in-range parameters freq = 12000, q = 1,
sampleRate = 48000. -/
theorem C7_witness :
    (FilterState.default.setParamsInner 12000 0 1 .peak 48000).gainAt 12000 48000 = 0 ∧
    Complex.abs ((FilterState.default.setParamsInner 12000 0 1 .notch
        48000).freqResponse 12000 48000) = 0 :=
  C7_center_gain FilterState.default 12000 1 48000 (by norm_num) (by norm_num) (by norm_num)
